import Mathlib

/-!
Shallow embedding of the workflow execution core of `sdk-node`
(`packages/workflow/src/internals.ts` and the deterministic-globals shim
`overrideGlobals`).  JavaScript mutation of the engine singleton `state` is
modelled by explicit state passing (`State → State × _`); a thrown exception
is modelled by `Except JSError`; invocations of user-supplied callbacks
(promise `resolve`/`reject` handlers, `setTimeout` callbacks) are recorded as
a trace of `Event`s.  Machine integers in the source are plain JS numbers used
as counters, modelled as `Nat`.

Parts of the repository that the sources reference but that are not present
(`errors.ts` error classes, the data converter, `time.ts` conversions, the
interceptor module) are modelled as parameters or, where a claim depends on
them, as spec-modelled definitions marked in their doc comments.
-/

/-- Scope type tag from `interfaces.ts` usage: `'scope' | 'activity' | 'timer'`. -/
inductive ScopeType where
  | scope
  | activity
  | timer
deriving DecidableEq

/-- The `CancellationError` class (`errors.ts`, constructed in `internals.ts`
as `new CancellationError(message, source)`). -/
structure CancellationError where
  message : String
  source : String
deriving DecidableEq

/-- JavaScript error values, by the class that constructs them in the source:
plain `new Error(msg)`, `IllegalStateError`, `TypeError`, `CancellationError`
and `DeterminismViolationError`. -/
inductive JSError where
  | error (message : String)
  | illegalState (message : String)
  | typeError (message : String)
  | cancellation (err : CancellationError)
  | determinismViolation (message : String)
deriving DecidableEq

/-- The `e instanceof CancellationError` test. -/
def JSError.isCancellation : JSError → Bool
  | .cancellation _ => true
  | _ => false

/-- Whether a JS error value is an `IllegalStateError`. -/
def JSError.isIllegalState : JSError → Bool
  | .illegalState _ => true
  | _ => false

/-- JavaScript values as far as the core inspects them: the engine only ever
compares against `undefined` and passes values through. -/
inductive Value where
  | undef
  | null
  | num (n : Int)
  | str (s : String)
  | bool (b : Bool)
deriving DecidableEq

/-- Opaque protobuf payload token (the converter is parameterized). -/
abbrev Payload := Nat

/-- Observable invocations of user-supplied callbacks.  `resolve`/`reject`
closures stored in completions and scope cancellation closures produce these
when called. -/
inductive Event where
  | callback (id : Nat) (args : List Value)
  | resolved (scopeIdx : Nat) (v : Value)
  | rejected (scopeIdx : Nat) (e : JSError)
deriving DecidableEq

/-- A scope object (`interfaces.ts` `Scope` as used by `internals.ts`):
identity index, type tag, `associated` flag and the two cancellation
closures.  The closures may throw (`Except.error`) and produce user-visible
events. -/
structure ScopeHandle where
  type : ScopeType
  idx : Nat
  associated : Bool
  requestCancel : CancellationError → Except JSError (List Event)
  completeCancel : CancellationError → Except JSError (List Event)

/-- A completion-table record `{resolve, reject, scope}` (`internals.ts`). -/
structure Completion where
  resolve : Value → List Event
  reject : JSError → List Event
  scope : ScopeHandle

/-- `ExternalCall` (`internals.ts`): `{ifaceName, fnName, args, seq?}`. -/
structure ExternalCall where
  ifaceName : String
  fnName : String
  args : List Value
  seq : Option Nat
deriving DecidableEq

/-- Result of `errorToUserCodeFailure` (`common.ts`, not in the sources):
a serializable failure carrying a message. -/
structure UserCodeFailure where
  message : Option String
deriving DecidableEq

/-- Outbound workflow commands pushed onto `state.commands`.  The
`startToFireTimeout` duration is kept in milliseconds (see `msToTs`). -/
inductive WorkflowCommand where
  | startTimer (timerId : String) (startToFireTimeoutMs : Nat)
  | cancelTimer (timerId : String)
  | completeWorkflowExecution (result : Payload)
  | failWorkflowExecution (failure : UserCodeFailure)
  | respondToQuerySucceeded (response : Payload)
  | respondToQueryFailedWithMessage (message : String)
deriving DecidableEq

/-- The fields of `WorkflowInfo` that `internals.ts` reads and writes:
`runId` (used by `concludeActivation`) and the mutable `isReplaying`. -/
structure WorkflowInfo where
  runId : String
  isReplaying : Bool
deriving DecidableEq

/-- A workflow object as the core calls it: `main` run to its settled
outcome (success value or thrown/rejected error). -/
structure Workflow where
  main : List Value → Except JSError Value

/-- Input to the composed `execute` interceptor chain (`startWorkflow`):
headers and decoded arguments. -/
structure ExecuteInput where
  headers : List (String × Payload)
  args : List Value

/-- One inbound `execute` interceptor: receives the input and the next
handler in the chain. -/
def ExecuteInterceptor : Type :=
  ExecuteInput → (ExecuteInput → Except JSError Value) → Except JSError Value

/-- The interceptor registry (`state.interceptors`); only the inbound
`execute` chain is exercised by the embedded operations. -/
structure WorkflowInterceptors where
  inbound : List ExecuteInterceptor

/-- The root scope's `requestCancel` closure (`internals.ts` `rootScope`):
always throws. -/
def rootScopeRequestCancel : CancellationError → Except JSError (List Event) :=
  fun _ => .error (.error "Root scope cannot be cancelled from within a workflow")

/-- The root `Scope` object.  Its `completeCancel` in the source delegates to
`rootScopeCancel`, which reads the engine state (`state.childScopes`) at call
time; that stateful behaviour is modelled by the separate `rootScopeCancel`
definition below, so the pure handle's field is a stub that is never the
subject of a theorem. -/
def rootScopeHandle : ScopeHandle where
  type := .scope
  idx := 0
  associated := true
  requestCancel := rootScopeRequestCancel
  completeCancel := fun _ => .ok []

/-- The engine state singleton (`internals.ts` `class State`), restricted to
the fields the embedded operations touch.  Maps are association lists;
`childScopes` is keyed by the parent scope's `idx`. -/
structure State where
  completions : List (Nat × Completion) := []
  scopeStack : List ScopeHandle := [rootScopeHandle]
  childScopes : List (Nat × List ScopeHandle) := []
  interceptors : WorkflowInterceptors := ⟨[]⟩
  commands : List WorkflowCommand := []
  pendingExternalCalls : List ExternalCall := []
  completed : Bool := false
  cancelled : Bool := false
  nextSeq : Nat := 0
  nextScopeIdx : Nat := 1
  now : Option Nat := none
  workflow : Option Workflow := none
  info : Option WorkflowInfo := none

/-- Initial value of the `state` singleton (`export const state = new State()`). -/
def initialState : State := {}

/-- First-match association lookup, the model of JS `Map.get`. -/
def assocFind {α : Type} : List (Nat × α) → Nat → Option α
  | [], _ => none
  | p :: t, k => if p.1 = k then some p.2 else assocFind t k

/-- In-place-or-append association update, the model of JS `Map.set`. -/
def assocSet {α : Type} : List (Nat × α) → Nat → α → List (Nat × α)
  | [], k, v => [(k, v)]
  | p :: t, k, v => if p.1 = k then (k, v) :: t else p :: assocSet t k v

/-- Key removal, the model of JS `Map.delete`. -/
def assocErase {α : Type} : List (Nat × α) → Nat → List (Nat × α)
  | [], _ => []
  | p :: t, k => if p.1 = k then assocErase t k else p :: assocErase t k

/-- `Map.get` on the completion table; `none` as key models `NaN` (which is
never a key, since keys come from `nextSeq`). -/
def lookupCompletion (l : List (Nat × Completion)) (k : Option Nat) : Option Completion :=
  match k with
  | none => none
  | some key => assocFind l key

/-- `Map.set` on the completion table. -/
def setCompletion (l : List (Nat × Completion)) (k : Nat) (v : Completion) :
    List (Nat × Completion) :=
  assocSet l k v

/-- `Map.delete` on the completion table (a no-op key of `NaN` deletes
nothing). -/
def eraseCompletion (l : List (Nat × Completion)) (k : Option Nat) :
    List (Nat × Completion) :=
  match k with
  | none => l
  | some key => assocErase l key

/-- `state.childScopes.get(scope)`, with scopes identified by `idx`. -/
def lookupChildScopes (l : List (Nat × List ScopeHandle)) (k : Nat) :
    Option (List ScopeHandle) :=
  assocFind l k

/-- `State.getAndResetPendingExternalCalls` (`internals.ts`). -/
def State.getAndResetPendingExternalCalls (s : State) : List ExternalCall × State :=
  if s.pendingExternalCalls.length > 0 then
    (s.pendingExternalCalls, { s with pendingExternalCalls := [] })
  else ([], s)

/-- JS `parseInt(str)` restricted to the inputs the engine produces: a run of
leading decimal digits, `none` modelling `NaN`. -/
def parseIntDec (str : String) : Option Nat :=
  let digits := str.toList.takeWhile Char.isDigit
  if digits.isEmpty then none
  else some (digits.foldl (fun acc c => acc * 10 + (c.toNat - 48)) 0)

/-- `idToSeq` (`internals.ts`): throws on a falsy id, otherwise `parseInt`. -/
def idToSeq (id : Option String) : Except JSError (Option Nat) :=
  match id with
  | none => .error (.error "Got activation with no timerId")
  | some str =>
      if str = "" then .error (.error "Got activation with no timerId")
      else .ok (parseIntDec str)

/-- Rendering of a possibly-`NaN` sequence number inside the
`consumeCompletion` error message. -/
def optSeqToString : Option Nat → String
  | none => "NaN"
  | some n => toString n

/-- `consumeCompletion` (`internals.ts`): remove and return the completion
for `taskSeq`; a missing entry throws a plain `Error` (not an
`IllegalStateError`). -/
def consumeCompletion (taskSeq : Option Nat) (s : State) :
    State × Except JSError Completion :=
  match lookupCompletion s.completions taskSeq with
  | none => (s, .error (.error ("No completion for taskSeq " ++ optSeqToString taskSeq)))
  | some c => ({ s with completions := eraseCompletion s.completions taskSeq }, .ok c)

/-- `currentScope` (`internals.ts`): top of the scope stack, throwing when
the stack is empty. -/
def currentScope (s : State) : Except JSError ScopeHandle :=
  match s.scopeStack.getLast? with
  | none => .error (.error "No scopes in stack")
  | some sc => .ok sc

/-- Selector for the two cancellation methods of a scope
(`propagateCancellation(method)`'s string argument). -/
inductive CancelMethod where
  | requestCancel
  | completeCancel
deriving DecidableEq

/-- Dynamic method access `child[method]` on a scope. -/
def ScopeHandle.callMethod (c : ScopeHandle) (m : CancelMethod) :
    CancellationError → Except JSError (List Event) :=
  match m with
  | .requestCancel => c.requestCancel
  | .completeCancel => c.completeCancel

/-- `propagateCancellation(method)(reject, scope)` applied to `err`
(`internals.ts`).  The call-time lookup `state.childScopes.get(scope)` is
passed in as `children`.  A missing mapping throws; otherwise every child's
method is invoked with `err`, any thrown error that is not the propagated
cancellation itself is forwarded to `reject`, and finally the scope's own
`reject` receives the cancellation. -/
def propagateCancellation (method : CancelMethod) (reject : JSError → List Event)
    (children : Option (List ScopeHandle)) (err : CancellationError) :
    Except JSError (List Event) :=
  match children with
  | none => .error (.error "Expected to find child scope mapping, got undefined")
  | some cs =>
      .ok ((cs.map (fun child =>
              match child.callMethod method err with
              | .ok evs => evs
              | .error e => if e = .cancellation err then [] else reject e)).flatten
           ++ reject (.cancellation err))

/-- The root scope's reject handler `() => undefined` used to build
`rootScopeCancel`. -/
def rootReject : JSError → List Event := fun _ => []

/-- `rootScopeCancel = propagateCancellation('completeCancel')(() => undefined, rootScope)`
(`internals.ts`), with the root's child-scope lookup passed in. -/
def rootScopeCancel (children : Option (List ScopeHandle)) (err : CancellationError) :
    Except JSError (List Event) :=
  propagateCancellation .completeCancel rootReject children err

/-- `Activator.cancelWorkflow` (`internals.ts`): set `state.cancelled = true`,
then `rootScopeCancel(new CancellationError('Workflow cancelled', 'external'))`.
The `cancelled` flag is set before the propagation, so it persists even when
the propagation throws. -/
def Activator.cancelWorkflow (s : State) : State × Except JSError (List Event) :=
  ({ s with cancelled := true },
   rootScopeCancel (lookupChildScopes s.childScopes rootScopeHandle.idx)
     ⟨"Workflow cancelled", "external"⟩)

/-- `Activator.fireTimer` (`internals.ts`): consume the completion for
`parseInt(timerId)` and call its `resolve` with `undefined`. -/
def Activator.fireTimer (timerId : Option String) (s : State) :
    State × Except JSError (List Event) :=
  match idToSeq timerId with
  | .error e => (s, .error e)
  | .ok seq =>
      let (s1, c) := consumeCompletion seq s
      match c with
      | .error e => (s1, .error e)
      | .ok comp => (s1, .ok (comp.resolve Value.undef))

/-- The `activation.result` oneof of a `resolveActivity` job. -/
inductive ActivityResult where
  | completed (result : Option Payload)
  | failed (message : Option String)
  | canceled
deriving DecidableEq

/-- `Activator.resolveActivity` (`internals.ts`).  The data converter's
`fromPayload` is a parameter (the converter module is not in the sources);
it returning `Value.undef` models a decode yielding `undefined`.  The
`failed` branch's `new Error(message)` with an `undefined` message yields an
empty error message, per JS `Error` semantics. -/
def Activator.resolveActivity (fromPayload : Payload → Value)
    (activityId : Option String) (result : Option ActivityResult) (s : State) :
    State × Except JSError (List Event) :=
  match result with
  | none => (s, .error (.error "Got CompleteActivity activation with no result"))
  | some res =>
      match idToSeq activityId with
      | .error e => (s, .error e)
      | .ok seq =>
          let (s1, c) := consumeCompletion seq s
          match c with
          | .error e => (s1, .error e)
          | .ok comp =>
              match res with
              | .completed payload =>
                  let r := match payload with
                    | some p => fromPayload p
                    | none => Value.undef
                  if r = Value.undef then
                    (s1, .ok (comp.reject (.error "Failed to convert from payload")))
                  else (s1, .ok (comp.resolve r))
              | .failed message =>
                  (s1, .ok (comp.reject (.error (message.getD ""))))
              | .canceled =>
                  match comp.scope.completeCancel ⟨"Activity cancelled", "internal"⟩ with
                  | .ok evs => (s1, .ok evs)
                  | .error e =>
                      if e.isCancellation then (s1, .ok []) else (s1, .error e)

/-- `composeInterceptors(state.interceptors.inbound, 'execute', base)`.
Modelled from the spec: the interceptor module is not in the sources; the
spec defines composition as a right-fold where the last interceptor wraps the
base action and each preceding one wraps the next. -/
def composeInterceptors (interceptors : List ExecuteInterceptor)
    (base : ExecuteInput → Except JSError Value) :
    ExecuteInput → Except JSError Value :=
  interceptors.foldr (fun i next => fun input => i input next) base

/-- The base handler of `startWorkflow`'s `execute` chain: throws
`IllegalStateError` when `state.workflow` is undefined, otherwise runs
`state.workflow.main(...args)` to its settled outcome. -/
def executeBase (s : State) : ExecuteInput → Except JSError Value :=
  fun input =>
    match s.workflow with
    | none => .error (.illegalState "state.workflow is not defined")
    | some wf => wf.main input.args

/-- `completeWorkflow` (`internals.ts`): push `completeWorkflowExecution`
with the converted result and set `completed = true`.  `toPayload` is the
data converter parameter. -/
def completeWorkflow (toPayload : Value → Payload) (result : Value) (s : State) : State :=
  { s with
    commands := s.commands ++ [.completeWorkflowExecution (toPayload result)],
    completed := true }

/-- `failWorkflow` (`internals.ts`): push `failWorkflowExecution` with
`errorToUserCodeFailure(error)` and set `completed = true`. -/
def failWorkflow (errorToUserCodeFailure : JSError → UserCodeFailure) (e : JSError)
    (s : State) : State :=
  { s with
    commands := s.commands ++ [.failWorkflowExecution (errorToUserCodeFailure e)],
    completed := true }

/-- `Activator.startWorkflow` (`internals.ts`): compose the inbound `execute`
interceptors around `state.workflow.main`, run with the activation's headers
and decoded arguments, then `.then(completeWorkflow).catch(failWorkflow)`.
The converter functions (`arrayFromPayloads`, `toPayload`,
`errorToUserCodeFailure`) are parameters; the settled outcome of the promise
chain is modelled directly. -/
def Activator.startWorkflow (toPayload : Value → Payload)
    (arrayFromPayloads : List Payload → List Value)
    (errorToUserCodeFailure : JSError → UserCodeFailure)
    (headers : List (String × Payload)) (arguments : List Payload)
    (s : State) : State :=
  let execute := composeInterceptors s.interceptors.inbound (executeBase s)
  match execute ⟨headers, arrayFromPayloads arguments⟩ with
  | .ok result => completeWorkflow toPayload result s
  | .error e => failWorkflow errorToUserCodeFailure e s

/-- `ExternalDependencyResult` (`internals.ts`): `{seq, result, error}`. -/
structure ExternalDependencyResult where
  seq : Nat
  result : Value
  error : Option JSError
deriving DecidableEq

/-- Loop body of `resolveExternalDependencies`: consume each completion in
order (a missing one throws, keeping the mutations already made) and reject
with the error when one is given, otherwise resolve with the result. -/
def resolveExternalDependenciesGo :
    List ExternalDependencyResult → State → List Event →
    State × Except JSError (List Event)
  | [], s, acc => (s, .ok acc)
  | r :: rest, s, acc =>
      let (s1, c) := consumeCompletion (some r.seq) s
      match c with
      | .error e => (s1, .error e)
      | .ok comp =>
          let evs := match r.error with
            | some err => comp.reject err
            | none => comp.resolve r.result
          resolveExternalDependenciesGo rest s1 (acc ++ evs)

/-- `resolveExternalDependencies` (`internals.ts`). -/
def resolveExternalDependencies (results : List ExternalDependencyResult)
    (s : State) : State × Except JSError (List Event) :=
  resolveExternalDependenciesGo results s []

/-- `msToTs` (`time.ts`, not in the sources).  Modelled from the spec: the
spec states `setTimeout` emits `startTimer{startToFireTimeout=ms}`, so the
duration is carried through in milliseconds. -/
def msToTs (ms : Nat) : Nat := ms

/-- The `setTimeout` shim installed by `overrideGlobals`: allocate
`seq = nextSeq++`, insert a completion whose `resolve` invokes `cb(...args)`
and whose `reject` ignores cancellation, under the current scope; push a
`startTimer` command and return `seq`.  `nextSeq` is incremented before
`currentScope()` is read, so the increment persists even if the scope stack
is empty and the read throws. -/
def setTimeout (cb : List Value → List Event) (ms : Nat) (args : List Value)
    (s : State) : State × Except JSError Nat :=
  let seq := s.nextSeq
  let s1 := { s with nextSeq := s.nextSeq + 1 }
  match currentScope s1 with
  | .error e => (s1, .error e)
  | .ok sc =>
      ({ s1 with
          completions := setCompletion s1.completions seq
            ⟨fun _ => cb args, fun _ => [], sc⟩,
          commands := s1.commands ++ [.startTimer (toString seq) (msToTs ms)] },
       .ok seq)

/-- The `clearTimeout` shim installed by `overrideGlobals`: increment
`nextSeq`, delete the completion for `handle`, push a `cancelTimer` command
with the handle's decimal string as `timerId`. -/
def clearTimeout (handle : Nat) (s : State) : State :=
  { s with
    nextSeq := s.nextSeq + 1,
    completions := eraseCompletion s.completions (some handle),
    commands := s.commands ++ [.cancelTimer (toString handle)] }

/-- The oneof discriminant `job.variant` of a `WFActivationJob`. -/
inductive JobVariant where
  | startWorkflow
  | cancelWorkflow
  | fireTimer
  | resolveActivity
  | queryWorkflow
  | signalWorkflow
  | updateRandomSeed
  | removeFromCache
deriving DecidableEq

/-- A decoded activation job as `activate` reads it: the oneof discriminant
(`undefined` when unset) and whether the variant's attribute payload
`job[job.variant]` is set (truthy). -/
structure WFActivationJob where
  variant : Option JobVariant
  attrsSet : Bool
deriving DecidableEq

/-- A decoded `WFActivation`: timestamp (already converted to milliseconds by
`tsToMs`), the optional `isReplaying` flag and the job array. -/
structure WFActivation where
  timestamp : Nat
  isReplaying : Option Bool
  jobs : List WFActivationJob
deriving DecidableEq

/-- `ActivationJobResult` (`internals.ts`). -/
structure ActivationJobResult where
  pendingExternalCalls : List ExternalCall
  processed : Bool
deriving DecidableEq

/-- `activate(encodedActivation, jobIndex)` (`internals.ts`), on the already
decoded activation.  Dispatch `state.activator[job.variant](variant)` is a
parameter since each handler's payload type differs; the handlers themselves
are embedded separately above.  Steps: set `state.now`; require workflow
info; update `isReplaying`; read the job and its variant (an out-of-range
index makes `job.variant` a property access on `undefined`, a `TypeError`);
on a completed workflow skip every variant except `queryWorkflow`, returning
not-processed while draining the pending external calls; otherwise dispatch
and return processed. -/
def activate (dispatch : JobVariant → State → State × Except JSError Unit)
    (activation : WFActivation) (jobIndex : Nat) (s : State) :
    State × Except JSError ActivationJobResult :=
  match s.info with
  | none => ({ s with now := some activation.timestamp },
             .error (.illegalState "Workflow has not been initialized"))
  | some info =>
      let s2 := { s with
        now := some activation.timestamp,
        info := some { info with isReplaying := activation.isReplaying.getD false } }
      match activation.jobs.get? jobIndex with
      | none => (s2, .error (.typeError "Cannot read properties of undefined"))
      | some job =>
          match job.variant with
          | none => (s2, .error (.typeError "Expected job.variant to be defined"))
          | some v =>
              if job.attrsSet = false then
                (s2, .error (.typeError "Expected job variant to be set"))
              else if s2.completed = true ∧ v ≠ JobVariant.queryWorkflow then
                let (calls, s3) := s2.getAndResetPendingExternalCalls
                (s3, .ok ⟨calls, false⟩)
              else
                let (s3, r) := dispatch v s2
                match r with
                | .error e => (s3, .error e)
                | .ok _ =>
                    let (calls, s4) := s3.getAndResetPendingExternalCalls
                    (s4, .ok ⟨calls, true⟩)

/-- The structural content of
`WFActivationCompletion.encodeDelimited({runId, successful: {commands}}).finish()`:
the protobuf encoder itself is external to the repository, so the encoded
bytes are modelled by the message they encode. -/
structure EncodedCompletion where
  runId : Option String
  commands : List WorkflowCommand
deriving DecidableEq

/-- `ActivationConclusion` (`internals.ts`). -/
inductive ActivationConclusion where
  | pending (pendingExternalCalls : List ExternalCall)
  | complete (encoded : EncodedCompletion)
deriving DecidableEq

/-- `concludeActivation` (`internals.ts`): drain the pending-external buffer;
when non-empty return `pending` with it (the command buffer is untouched);
otherwise encode `{runId: info?.runId, successful: {commands}}`, clear the
command buffer and return `complete`. -/
def concludeActivation (s : State) : ActivationConclusion × State :=
  let (pendingExternalCalls, s1) := s.getAndResetPendingExternalCalls
  if pendingExternalCalls.length > 0 then (.pending pendingExternalCalls, s1)
  else
    let encoded : EncodedCompletion :=
      ⟨s1.info.map WorkflowInfo.runId, s1.commands⟩
    (.complete encoded, { s1 with commands := [] })

/-- A sample external call used in concrete evaluations. -/
def sampleCall : ExternalCall := ⟨"logger", "info", [Value.str "hi"], some 3⟩

/-- A sample user callback (tagged 7) used in concrete evaluations. -/
def sampleCb : List Value → List Event := fun args => [Event.callback 7 args]

/-- A child scope whose `completeCancel` rejects its own promise with the
received cancellation. -/
def childOk : ScopeHandle where
  type := .scope
  idx := 1
  associated := true
  requestCancel := fun _ => .ok []
  completeCancel := fun e => .ok [Event.rejected 1 (.cancellation e)]

/-- A child scope whose `completeCancel` re-throws the received cancellation. -/
def childRethrows : ScopeHandle where
  type := .scope
  idx := 2
  associated := true
  requestCancel := fun _ => .ok []
  completeCancel := fun e => .error (.cancellation e)

/-- A child scope whose `completeCancel` throws a non-cancellation error. -/
def childThrows : ScopeHandle where
  type := .scope
  idx := 3
  associated := true
  requestCancel := fun _ => .ok []
  completeCancel := fun _ => .error (.error "boom")

/-- A sample completion record (scope `childOk`, events tagged 1). -/
def sampleCompletion : Completion where
  resolve := fun v => [Event.resolved 1 v]
  reject := fun e => [Event.rejected 1 e]
  scope := childOk

/-- A completion whose scope's `completeCancel` throws a non-cancellation
error (for the `resolveActivity` canceled branch). -/
def throwingCompletion : Completion where
  resolve := fun v => [Event.resolved 3 v]
  reject := fun e => [Event.rejected 3 e]
  scope := childThrows

/-- A data converter `fromPayload` used in concrete evaluations: payload 0
decodes to `undefined`, payload `n+1` to the number `n`. -/
def sampleFromPayload : Payload → Value :=
  fun p => match p with
  | 0 => Value.undef
  | Nat.succ n => Value.num n

/-- Whether an `Except` outcome is a thrown `IllegalStateError`. -/
def exceptErrIsIllegalState {α : Type} : Except JSError α → Bool
  | .error e => e.isIllegalState
  | .ok _ => false

/-- A state with one completion at sequence 0 (for `clearTimeout`
evaluations). -/
def clearState : State :=
  { initialState with completions := [(0, sampleCompletion)], nextSeq := 1 }

/-- A state with a non-empty pending-external buffer and a buffered command. -/
def pendingState : State :=
  { initialState with
      pendingExternalCalls := [sampleCall],
      commands := [WorkflowCommand.cancelTimer "9"],
      info := some ⟨"run-1", false⟩ }

/-- A state with an empty pending-external buffer and a buffered command. -/
def donePendingState : State :=
  { initialState with
      commands := [WorkflowCommand.cancelTimer "9"],
      info := some ⟨"run-1", false⟩ }

/-- A completed workflow state with a pending external call. -/
def completedState : State :=
  { initialState with
      completed := true,
      info := some ⟨"run-1", false⟩,
      pendingExternalCalls := [sampleCall] }

/-- A state whose root scope has two tracked child scopes. -/
def cancelState : State :=
  { initialState with childScopes := [(0, [childOk, childThrows])] }

/-- A state with completion `sampleCompletion` registered at sequence 0. -/
def actState : State :=
  { initialState with completions := [(0, sampleCompletion)] }

/-- A state with a completion at sequence 0 whose scope's `completeCancel`
throws a non-cancellation error. -/
def actStateThrows : State :=
  { initialState with completions := [(0, throwingCompletion)] }

/-- A dispatch function for concrete `activate` evaluations: marks the state
and succeeds. -/
def sampleDispatch : JobVariant → State → State × Except JSError Unit :=
  fun _ s => ({ s with cancelled := true }, .ok ())

/-- A concrete activation with a `fireTimer` job and a `queryWorkflow` job. -/
def sampleActivation : WFActivation :=
  ⟨1000, some true,
   [⟨some JobVariant.fireTimer, true⟩, ⟨some JobVariant.queryWorkflow, true⟩]⟩

/-- A data converter `toPayload` for concrete evaluations. -/
def sampleToPayload : Value → Payload :=
  fun v => match v with
  | Value.num n => n.toNat + 1
  | _ => 0

/-- A payload-array decoder for concrete evaluations. -/
def sampleArrayFromPayloads : List Payload → List Value :=
  fun ps => ps.map sampleFromPayload

/-- An `errorToUserCodeFailure` for concrete evaluations: keeps the message. -/
def sampleErrToFailure : JSError → UserCodeFailure :=
  fun e => match e with
  | .error m => ⟨some m⟩
  | .illegalState m => ⟨some m⟩
  | .typeError m => ⟨some m⟩
  | .cancellation c => ⟨some c.message⟩
  | .determinismViolation m => ⟨some m⟩

/-- A state with a workflow whose `main` succeeds with the number 42. -/
def wfState : State :=
  { initialState with workflow := some ⟨fun _ => .ok (Value.num 42)⟩ }

/-- A state with a workflow whose `main` throws. -/
def failWfState : State :=
  { initialState with workflow := some ⟨fun _ => .error (.error "nope")⟩ }

/-- Draining the pending-external buffer always yields the buffer's contents
and a state whose buffer is empty (also when it was already empty). -/
theorem State.getAndReset_eq (s : State) :
    s.getAndResetPendingExternalCalls =
      (s.pendingExternalCalls, { s with pendingExternalCalls := [] }) := by
  unfold State.getAndResetPendingExternalCalls
  by_cases h : s.pendingExternalCalls.length > 0
  · simp [h]
  · have h0 : s.pendingExternalCalls = [] := by
      cases hp : s.pendingExternalCalls with
      | nil => rfl
      | cons a t => rw [hp] at h; simp at h
    rw [if_neg h, h0]
    cases s
    simp_all

/-- After deleting key `k`, looking up `k` misses. -/
theorem lookupCompletion_erase_self (l : List (Nat × Completion)) (k : Nat) :
    lookupCompletion (eraseCompletion l (some k)) (some k) = none := by
  induction l with
  | nil => rfl
  | cons a t ih =>
      by_cases h : a.1 = k
      · simp only [lookupCompletion, eraseCompletion, assocErase, if_pos h]
        exact ih
      · simp only [lookupCompletion, eraseCompletion, assocErase, if_neg h,
          assocFind, if_neg h] at ih ⊢
        exact ih

/-- Deleting key `k` preserves lookups of other keys. -/
theorem lookupCompletion_erase_other (l : List (Nat × Completion)) (k j : Nat)
    (h : j ≠ k) :
    lookupCompletion (eraseCompletion l (some k)) (some j) =
      lookupCompletion l (some j) := by
  induction l with
  | nil => rfl
  | cons a t ih =>
      by_cases hak : a.1 = k
      · have haj : ¬ (a.1 = j) := fun hj => h (by rw [← hj, hak])
        simp only [lookupCompletion, eraseCompletion, assocErase, if_pos hak,
          assocFind, if_neg haj] at ih ⊢
        exact ih
      · by_cases haj : a.1 = j
        · simp only [lookupCompletion, eraseCompletion, assocErase, if_neg hak,
            assocFind, if_pos haj]
        · simp only [lookupCompletion, eraseCompletion, assocErase, if_neg hak,
            assocFind, if_neg haj] at ih ⊢
          exact ih

/-- Deleting an absent key leaves the completion table unchanged. -/
theorem eraseCompletion_of_lookup_none (l : List (Nat × Completion)) (k : Nat)
    (h : lookupCompletion l (some k) = none) :
    eraseCompletion l (some k) = l := by
  induction l with
  | nil => rfl
  | cons a t ih =>
      by_cases hak : a.1 = k
      · simp only [lookupCompletion, assocFind, if_pos hak] at h
        exact Option.noConfusion h
      · simp only [lookupCompletion, assocFind, if_neg hak] at h
        simp only [eraseCompletion, assocErase, if_neg hak]
        have ht := ih (by simpa [lookupCompletion] using h)
        simp only [eraseCompletion] at ht
        rw [ht]

/-- C5: `setTimeout(cb, ms, ...args)` allocates `seq = nextSeq` and
increments `nextSeq`, inserts a completion record whose `resolve` invokes
`cb(...args)` (ignoring the resolution value), whose `reject` is a no-op and
whose scope is the current scope, appends a `startTimer` command with
`timerId` equal to the decimal string of `seq` and `startToFireTimeout`
equal to `ms`, and returns `seq`. -/
theorem setTimeout_spec (cb : List Value → List Event) (ms : Nat)
    (args : List Value) (s : State) (sc : ScopeHandle)
    (hsc : s.scopeStack.getLast? = some sc) :
    setTimeout cb ms args s =
      ({ s with
          nextSeq := s.nextSeq + 1,
          completions := setCompletion s.completions s.nextSeq
            ⟨fun _ => cb args, fun _ => [], sc⟩,
          commands := s.commands ++
            [.startTimer (toString s.nextSeq) (msToTs ms)] },
       .ok s.nextSeq) := by
  unfold setTimeout currentScope
  simp only [hsc]

/-- C5 witness: a concrete `setTimeout` call on the initial state. -/
theorem setTimeout_spec_witness :
    setTimeout sampleCb 100 [Value.num 5] initialState =
      ({ initialState with
          nextSeq := 1,
          completions := setCompletion initialState.completions 0
            ⟨fun _ => sampleCb [Value.num 5], fun _ => [], rootScopeHandle⟩,
          commands := [WorkflowCommand.startTimer "0" 100] },
       .ok 0) :=
  setTimeout_spec sampleCb 100 [Value.num 5] initialState rootScopeHandle rfl

/-- C6: `clearTimeout(handle)` increments `nextSeq`, deletes the
completion-table entry for `handle` (leaving every other entry intact), and
appends a `cancelTimer` command whose `timerId` is the decimal string of
`handle`; nothing else in the state changes. -/
theorem clearTimeout_spec (handle : Nat) (s : State) :
    (clearTimeout handle s).nextSeq = s.nextSeq + 1 ∧
    lookupCompletion (clearTimeout handle s).completions (some handle) = none ∧
    (∀ k, k ≠ handle →
      lookupCompletion (clearTimeout handle s).completions (some k) =
        lookupCompletion s.completions (some k)) ∧
    (clearTimeout handle s).commands =
      s.commands ++ [.cancelTimer (toString handle)] ∧
    (clearTimeout handle s).pendingExternalCalls = s.pendingExternalCalls := by
  refine ⟨rfl, ?_, ?_, rfl, rfl⟩
  · exact lookupCompletion_erase_self s.completions handle
  · intro k hk
    exact lookupCompletion_erase_other s.completions handle k hk

/-- C6 witness: a concrete `clearTimeout` on a state holding the timer's
completion. -/
theorem clearTimeout_spec_witness :
    (clearTimeout 0 clearState).nextSeq = clearState.nextSeq + 1 ∧
    lookupCompletion (clearTimeout 0 clearState).completions (some 0) = none ∧
    lookupCompletion (clearTimeout 0 clearState).completions (some 1) =
      lookupCompletion clearState.completions (some 1) ∧
    (clearTimeout 0 clearState).commands =
      clearState.commands ++ [.cancelTimer "0"] :=
  ⟨(clearTimeout_spec 0 clearState).1,
   (clearTimeout_spec 0 clearState).2.1,
   (clearTimeout_spec 0 clearState).2.2.1 1 (by decide),
   (clearTimeout_spec 0 clearState).2.2.2.1⟩

/-- C9: `clearTimeout(handle)` still appends a `cancelTimer` command and
increments `nextSeq` when no completion-table entry exists for `handle`;
the deletion is a no-op and the rest of the state is untouched. -/
theorem clearTimeout_unknown_handle (handle : Nat) (s : State)
    (h : lookupCompletion s.completions (some handle) = none) :
    clearTimeout handle s =
      { s with
          nextSeq := s.nextSeq + 1,
          commands := s.commands ++ [.cancelTimer (toString handle)] } := by
  unfold clearTimeout
  rw [eraseCompletion_of_lookup_none s.completions handle h]

/-- C9 witness: clearing an unknown timer id still emits the command. -/
theorem clearTimeout_unknown_handle_witness :
    clearTimeout 5 clearState =
      { clearState with
          nextSeq := clearState.nextSeq + 1,
          commands := clearState.commands ++ [.cancelTimer "5"] } :=
  clearTimeout_unknown_handle 5 clearState rfl

/-- C7: `concludeActivation` returns `pending` with exactly the drained
pending-external buffer when that buffer is non-empty, leaving the command
buffer unchanged; otherwise it returns `complete` with the encoded
`WFActivationCompletion` carrying the run id and the accumulated commands,
and resets the command buffer to empty. -/
theorem concludeActivation_spec (s : State) :
    (s.pendingExternalCalls ≠ [] →
      concludeActivation s =
        (.pending s.pendingExternalCalls, { s with pendingExternalCalls := [] })) ∧
    (s.pendingExternalCalls = [] →
      concludeActivation s =
        (.complete ⟨s.info.map WorkflowInfo.runId, s.commands⟩,
         { s with commands := [] })) := by
  obtain ⟨c1, c2, c3, c4, c5, c6, c7, c8, c9, c10, c11, c12, c13⟩ := s
  constructor
  · intro h
    have hlen : (c6 : List ExternalCall).length > 0 := by
      cases c6 with
      | nil => simp at h
      | cons a t => simp
    simp [concludeActivation, State.getAndResetPendingExternalCalls, hlen]
  · intro h
    simp only at h
    subst h
    simp [concludeActivation, State.getAndResetPendingExternalCalls]

/-- C7 witness: conclusion on a state with a pending external call, and on a
state without one. -/
theorem concludeActivation_spec_witness :
    concludeActivation pendingState =
      (.pending pendingState.pendingExternalCalls,
       { pendingState with pendingExternalCalls := [] }) ∧
    concludeActivation donePendingState =
      (.complete ⟨donePendingState.info.map WorkflowInfo.runId,
                  donePendingState.commands⟩,
       { donePendingState with commands := [] }) :=
  ⟨(concludeActivation_spec pendingState).1 (by decide),
   (concludeActivation_spec donePendingState).2 rfl⟩

/-- C10: a scope with no entry in the child-scope map makes its propagated
cancellation function throw an `Error` instead of rejecting the scope with
the cancellation, so a `cancelWorkflow` job on a state whose root scope has
no child-scope entry fails with that error (though `cancelled` is still
set, having been assigned before the propagation). -/
theorem propagateCancellation_missing_children (method : CancelMethod)
    (reject : JSError → List Event) (err : CancellationError) (s : State)
    (hroot : lookupChildScopes s.childScopes rootScopeHandle.idx = none) :
    propagateCancellation method reject none err =
      .error (.error "Expected to find child scope mapping, got undefined") ∧
    (∀ evs, propagateCancellation method reject none err ≠ .ok evs) ∧
    Activator.cancelWorkflow s =
      ({ s with cancelled := true },
       .error (.error "Expected to find child scope mapping, got undefined")) := by
  refine ⟨rfl, ?_, ?_⟩
  · intro evs h
    simp [propagateCancellation] at h
  · unfold Activator.cancelWorkflow rootScopeCancel
    rw [hroot]
    rfl

/-- C10 witness: `cancelWorkflow` on the initial state (whose child-scope
map is empty) throws. -/
theorem propagateCancellation_missing_children_witness :
    propagateCancellation .completeCancel rootReject none
        ⟨"Workflow cancelled", "external"⟩ =
      .error (.error "Expected to find child scope mapping, got undefined") ∧
    Activator.cancelWorkflow initialState =
      ({ initialState with cancelled := true },
       .error (.error "Expected to find child scope mapping, got undefined")) :=
  ⟨(propagateCancellation_missing_children .completeCancel rootReject
      ⟨"Workflow cancelled", "external"⟩ initialState rfl).1,
   (propagateCancellation_missing_children .completeCancel rootReject
      ⟨"Workflow cancelled", "external"⟩ initialState rfl).2.2⟩

/-- C4: a `cancelWorkflow` job sets `cancelled` to true and complete-cancels
the root scope with `CancellationError('Workflow cancelled', 'external')`:
every child scope of the root receives `completeCancel` with that error (a
child-thrown error other than the propagated cancellation is forwarded to
the root's no-op reject, and the root's own reject is a no-op); and the root
scope's `requestCancel` always throws, so the root cannot be cancelled from
within user code. -/
theorem cancelWorkflow_propagates (s : State) (cs : List ScopeHandle)
    (hroot : lookupChildScopes s.childScopes rootScopeHandle.idx = some cs) :
    Activator.cancelWorkflow s =
      ({ s with cancelled := true },
       .ok ((cs.map (fun child =>
              match child.completeCancel ⟨"Workflow cancelled", "external"⟩ with
              | .ok evs => evs
              | .error e =>
                  if e = .cancellation ⟨"Workflow cancelled", "external"⟩ then []
                  else rootReject e)).flatten)) ∧
    (∀ err, rootScopeRequestCancel err =
      .error (.error "Root scope cannot be cancelled from within a workflow")) := by
  constructor
  · unfold Activator.cancelWorkflow rootScopeCancel propagateCancellation
    rw [hroot]
    simp [ScopeHandle.callMethod, rootReject]
  · intro err
    rfl

/-- C4 witness: cancelling a workflow whose root has two children, one
rejecting normally and one throwing a non-cancellation error. -/
theorem cancelWorkflow_propagates_witness :
    Activator.cancelWorkflow cancelState =
      ({ cancelState with cancelled := true },
       .ok [Event.rejected 1 (.cancellation ⟨"Workflow cancelled", "external"⟩)]) ∧
    rootScopeRequestCancel ⟨"x", "internal"⟩ =
      .error (.error "Root scope cannot be cancelled from within a workflow") := by
  have h := cancelWorkflow_propagates cancelState [childOk, childThrows] rfl
  refine ⟨?_, h.2 ⟨"x", "internal"⟩⟩
  rw [h.1]
  rfl

/-- C2 counterexample: a `fireTimer` job whose sequence number (0) has no
completion-table entry fails with a plain `Error`
('No completion for taskSeq 0'), which is not an `IllegalStateError`, so the
claim's stated error kind is false on the code: `consumeCompletion` throws
`new Error(...)`, not `new IllegalStateError(...)`. -/
theorem missing_completion_not_illegalState_cex :
    Activator.fireTimer (some "0") initialState =
      (initialState, .error (.error "No completion for taskSeq 0")) ∧
    exceptErrIsIllegalState (Activator.fireTimer (some "0") initialState).2 = false :=
  ⟨rfl, rfl⟩

/-- C2 (amended): a resolution job (`fireTimer`, `resolveActivity`,
`resolveExternalDependencies`) whose sequence number has no entry in the
completion table fails — but with a plain `Error` whose message is
'No completion for taskSeq <seq>', not with an `IllegalStateError`. -/
theorem missing_completion_fails_with_plain_error (s : State) (seq : Nat)
    (tid : String) (fromPayload : Payload → Value) (res : ActivityResult)
    (r : ExternalDependencyResult)
    (hparse : idToSeq (some tid) = .ok (some seq))
    (hmiss : lookupCompletion s.completions (some seq) = none)
    (hr : r.seq = seq) :
    Activator.fireTimer (some tid) s =
      (s, .error (.error ("No completion for taskSeq " ++ toString seq))) ∧
    Activator.resolveActivity fromPayload (some tid) (some res) s =
      (s, .error (.error ("No completion for taskSeq " ++ toString seq))) ∧
    resolveExternalDependencies [r] s =
      (s, .error (.error ("No completion for taskSeq " ++ toString seq))) ∧
    JSError.isIllegalState (.error ("No completion for taskSeq " ++ toString seq)) = false := by
  refine ⟨?_, ?_, ?_, rfl⟩
  · simp only [Activator.fireTimer, hparse, consumeCompletion, hmiss, optSeqToString]
  · simp only [Activator.resolveActivity, hparse, consumeCompletion, hmiss, optSeqToString]
  · simp only [resolveExternalDependencies, resolveExternalDependenciesGo, hr,
      consumeCompletion, hmiss, optSeqToString]

/-- C2 (amended) witness: concrete missing-seq failures on the initial
state. -/
theorem missing_completion_fails_with_plain_error_witness :
    Activator.fireTimer (some "7") initialState =
      (initialState, .error (.error "No completion for taskSeq 7")) ∧
    Activator.resolveActivity sampleFromPayload (some "7")
        (some (.failed (some "x"))) initialState =
      (initialState, .error (.error "No completion for taskSeq 7")) ∧
    resolveExternalDependencies [⟨7, Value.undef, none⟩] initialState =
      (initialState, .error (.error "No completion for taskSeq 7")) := by
  have h := missing_completion_fails_with_plain_error initialState 7 "7"
    sampleFromPayload (.failed (some "x")) ⟨7, Value.undef, none⟩ rfl rfl rfl
  exact ⟨h.1, h.2.1, h.2.2.1⟩

/-- C3: `resolveActivity` consumes the matching completion, then: on
`completed` it decodes the payload and resolves with the decoded value,
except that a decode yielding `undefined` rejects with the payload-decode
error; on `failed` it rejects with the failure message; on `canceled` it
invokes the scope's `completeCancel`, swallowing a thrown cancellation
error and propagating any other thrown error. -/
theorem resolveActivity_spec (fromPayload : Payload → Value)
    (aid : String) (seq : Nat) (s : State) (comp : Completion)
    (hparse : idToSeq (some aid) = .ok (some seq))
    (hfind : lookupCompletion s.completions (some seq) = some comp) :
    (∀ p, fromPayload p ≠ Value.undef →
      Activator.resolveActivity fromPayload (some aid)
          (some (.completed (some p))) s =
        ({ s with completions := eraseCompletion s.completions (some seq) },
         .ok (comp.resolve (fromPayload p)))) ∧
    (∀ p, fromPayload p = Value.undef →
      Activator.resolveActivity fromPayload (some aid)
          (some (.completed (some p))) s =
        ({ s with completions := eraseCompletion s.completions (some seq) },
         .ok (comp.reject (.error "Failed to convert from payload")))) ∧
    (∀ msg, Activator.resolveActivity fromPayload (some aid)
          (some (.failed msg)) s =
        ({ s with completions := eraseCompletion s.completions (some seq) },
         .ok (comp.reject (.error (msg.getD ""))))) ∧
    (∀ evs, comp.scope.completeCancel ⟨"Activity cancelled", "internal"⟩ = .ok evs →
      Activator.resolveActivity fromPayload (some aid) (some .canceled) s =
        ({ s with completions := eraseCompletion s.completions (some seq) },
         .ok evs)) ∧
    (∀ e, comp.scope.completeCancel ⟨"Activity cancelled", "internal"⟩ = .error e →
      e.isCancellation = true →
      Activator.resolveActivity fromPayload (some aid) (some .canceled) s =
        ({ s with completions := eraseCompletion s.completions (some seq) },
         .ok [])) ∧
    (∀ e, comp.scope.completeCancel ⟨"Activity cancelled", "internal"⟩ = .error e →
      e.isCancellation = false →
      Activator.resolveActivity fromPayload (some aid) (some .canceled) s =
        ({ s with completions := eraseCompletion s.completions (some seq) },
         .error e)) := by
  refine ⟨?_, ?_, ?_, ?_, ?_, ?_⟩
  · intro p hp
    simp only [Activator.resolveActivity, hparse, consumeCompletion, hfind]
    simp [hp]
  · intro p hp
    simp only [Activator.resolveActivity, hparse, consumeCompletion, hfind]
    simp [hp]
  · intro msg
    simp only [Activator.resolveActivity, hparse, consumeCompletion, hfind]
  · intro evs hc
    simp only [Activator.resolveActivity, hparse, consumeCompletion, hfind, hc]
  · intro e hc hcan
    simp only [Activator.resolveActivity, hparse, consumeCompletion, hfind, hc]
    simp [hcan]
  · intro e hc hcan
    simp only [Activator.resolveActivity, hparse, consumeCompletion, hfind, hc]
    simp [hcan]

/-- C3 witness: concrete `resolveActivity` jobs hitting the resolve branch,
the failed branch and the propagating canceled branch. -/
theorem resolveActivity_spec_witness :
    Activator.resolveActivity sampleFromPayload (some "0")
        (some (.completed (some 3))) actState =
      ({ actState with completions := [] },
       .ok [Event.resolved 1 (Value.num 2)]) ∧
    Activator.resolveActivity sampleFromPayload (some "0")
        (some (.failed (some "boom"))) actState =
      ({ actState with completions := [] },
       .ok [Event.rejected 1 (.error "boom")]) ∧
    Activator.resolveActivity sampleFromPayload (some "0")
        (some .canceled) actStateThrows =
      ({ actStateThrows with completions := [] }, .error (.error "boom")) := by
  have h := resolveActivity_spec sampleFromPayload "0" 0 actState
    sampleCompletion rfl rfl
  have h2 := resolveActivity_spec sampleFromPayload "0" 0 actStateThrows
    throwingCompletion rfl rfl
  exact ⟨h.1 3 (by decide), h.2.2.1 (some "boom"),
    h2.2.2.2.2.2 (.error "boom") rfl rfl⟩

/-- C8: `startWorkflow` runs `workflow.main` wrapped by the inbound
`execute` interceptor chain; when the chain settles successfully a
`completeWorkflowExecution` command carrying the converted result is
appended, and when it fails a `failWorkflowExecution` command carrying the
converted failure is appended; in both cases `completed` is set to true. -/
theorem startWorkflow_spec (toPayload : Value → Payload)
    (arrayFromPayloads : List Payload → List Value)
    (errorToUserCodeFailure : JSError → UserCodeFailure)
    (headers : List (String × Payload)) (arguments : List Payload)
    (s : State) :
    (∀ v, composeInterceptors s.interceptors.inbound (executeBase s)
        ⟨headers, arrayFromPayloads arguments⟩ = .ok v →
      Activator.startWorkflow toPayload arrayFromPayloads errorToUserCodeFailure
          headers arguments s =
        { s with
            commands := s.commands ++ [.completeWorkflowExecution (toPayload v)],
            completed := true }) ∧
    (∀ e, composeInterceptors s.interceptors.inbound (executeBase s)
        ⟨headers, arrayFromPayloads arguments⟩ = .error e →
      Activator.startWorkflow toPayload arrayFromPayloads errorToUserCodeFailure
          headers arguments s =
        { s with
            commands := s.commands ++ [.failWorkflowExecution (errorToUserCodeFailure e)],
            completed := true }) := by
  constructor
  · intro v hv
    simp only [Activator.startWorkflow, hv, completeWorkflow]
  · intro e he
    simp only [Activator.startWorkflow, he, failWorkflow]

/-- C8 witness: a `startWorkflow` whose `main` succeeds, and one whose
`main` throws. -/
theorem startWorkflow_spec_witness :
    Activator.startWorkflow sampleToPayload sampleArrayFromPayloads
        sampleErrToFailure [] [] wfState =
      { wfState with
          commands := [.completeWorkflowExecution 43],
          completed := true } ∧
    Activator.startWorkflow sampleToPayload sampleArrayFromPayloads
        sampleErrToFailure [] [] failWfState =
      { failWfState with
          commands := [.failWorkflowExecution ⟨some "nope"⟩],
          completed := true } :=
  ⟨(startWorkflow_spec sampleToPayload sampleArrayFromPayloads
      sampleErrToFailure [] [] wfState).1 (Value.num 42) rfl,
   (startWorkflow_spec sampleToPayload sampleArrayFromPayloads
      sampleErrToFailure [] [] failWfState).2 (.error "nope") rfl⟩

/-- C1: on a completed workflow, `activate` skips every job whose variant is
not `queryWorkflow`, returning `processed = false` with the drained
pending-external buffer and never invoking the dispatcher; a `queryWorkflow`
job is dispatched normally and returns `processed = true`. -/
theorem activate_completed_only_queries
    (dispatch : JobVariant → State → State × Except JSError Unit)
    (activation : WFActivation) (jobIndex : Nat) (s : State)
    (job : WFActivationJob) (v : JobVariant) (i : WorkflowInfo)
    (hjob : activation.jobs.get? jobIndex = some job)
    (hv : job.variant = some v)
    (hattrs : job.attrsSet = true)
    (hinfo : s.info = some i)
    (hcompleted : s.completed = true) :
    (v ≠ JobVariant.queryWorkflow →
      activate dispatch activation jobIndex s =
        ({ s with
            now := some activation.timestamp,
            info := some { i with isReplaying := activation.isReplaying.getD false },
            pendingExternalCalls := [] },
         .ok ⟨s.pendingExternalCalls, false⟩)) ∧
    (∀ s3, v = JobVariant.queryWorkflow →
      dispatch v { s with
          now := some activation.timestamp,
          info := some { i with isReplaying := activation.isReplaying.getD false } } =
        (s3, .ok ()) →
      activate dispatch activation jobIndex s =
        ({ s3 with pendingExternalCalls := [] },
         .ok ⟨s3.pendingExternalCalls, true⟩)) := by
  constructor
  · intro hne
    simp only [activate, hinfo, hjob, hv, hattrs, hcompleted, State.getAndReset_eq,
      hne, not_false_eq_true, and_self, if_true, Bool.true_eq_false, if_false, ne_eq]
  · intro s3 hq hd
    subst hq
    simp only [activate, hinfo, hjob, hv, hattrs, State.getAndReset_eq, hd,
      Bool.true_eq_false, if_false, ne_eq, not_true_eq_false, and_false]

/-- C1 witness: on a completed state, a `fireTimer` job is skipped while the
pending buffer is drained, and a `queryWorkflow` job is dispatched. -/
theorem activate_completed_only_queries_witness :
    activate sampleDispatch sampleActivation 0 completedState =
      ({ completedState with
          now := some sampleActivation.timestamp,
          info := some ⟨"run-1", true⟩,
          pendingExternalCalls := [] },
       .ok ⟨completedState.pendingExternalCalls, false⟩) ∧
    activate sampleDispatch sampleActivation 1 completedState =
      ({ completedState with
          now := some sampleActivation.timestamp,
          info := some ⟨"run-1", true⟩,
          cancelled := true,
          pendingExternalCalls := [] },
       .ok ⟨completedState.pendingExternalCalls, true⟩) := by
  have h1 := activate_completed_only_queries sampleDispatch sampleActivation 0
    completedState ⟨some JobVariant.fireTimer, true⟩ JobVariant.fireTimer
    ⟨"run-1", false⟩ rfl rfl rfl rfl rfl
  have h2 := activate_completed_only_queries sampleDispatch sampleActivation 1
    completedState ⟨some JobVariant.queryWorkflow, true⟩ JobVariant.queryWorkflow
    ⟨"run-1", false⟩ rfl rfl rfl rfl rfl
  refine ⟨?_, ?_⟩
  · rw [h1.1 (by decide)]
    rfl
  · rw [h2.2 { completedState with
        now := some sampleActivation.timestamp,
        info := some ⟨"run-1", true⟩,
        cancelled := true } rfl rfl]
